import Mathlib

/-
Verification of the prompter orchestration core against its specification.

The development shallowly embeds the Go sources:
  - internal/claude/claude.go        (response parsing, SendMessage degradation)
  - internal/server/handlers.go      (parseRawResponse, extractQuestionsFromRaw,
                                      extractLegacyQuestion, buildTimeline,
                                      handleRepoStatus auto-dispatch CAS,
                                      backgroundSendMessage, handleShow)
  - internal/server/server.go        (repoStatusEntry, getRepoStatus)
  - internal/db/queries.go           (DeletePromptRequest, ListPromptRequests)

Modelling conventions:
  - Go's encoding/json is embedded as a total, fuelled parser from strings to a
    semantic `Json` value type, together with per-struct decoders that mirror
    json.Unmarshal semantics for the concrete target structs of the sources:
    unknown object keys are ignored, a JSON null into a scalar field is a no-op,
    a JSON null into a pointer or slice field stores the empty value, a type
    mismatch anywhere makes the whole Unmarshal fail (the sources only branch on
    err == nil, so partial population on error is unobservable), and a duplicated
    key is decoded left to right so the last occurrence wins.  The case-folding
    fallback of encoding/json for field names is not modelled; all payloads of
    interest use the exact lower-case tags.
  - int64 database ids are modelled as Int; machine overflow is irrelevant here
    because no arithmetic is performed on ids.
  - The storage collaborator is modelled as always succeeding, as stipulated by
    the specification (it is treated as always-consistent and synchronous).
-/

set_option maxRecDepth 8192

namespace Prompter

/-- Semantic JSON values.  Numbers keep their source lexeme: none of the decoded
structs has a numeric field, so only the syntactic category matters. -/
inductive Json where
  | null
  | bool (b : Bool)
  | num (lit : String)
  | str (s : String)
  | arr (elems : List Json)
  | obj (fields : List (String × Json))

/-- Left brace character, written via its code point. -/
def lbrace : Char := Char.ofNat 123

/-- Right brace character, written via its code point. -/
def rbrace : Char := Char.ofNat 125

/-- JSON insignificant whitespace. -/
def isJsonWs (c : Char) : Bool := c = ' ' || c = '\t' || c = '\n' || c = '\r'

/-- Drop leading JSON whitespace. -/
def dropWs : List Char → List Char
  | [] => []
  | c :: cs => if isJsonWs c then dropWs cs else c :: cs

/-- ASCII decimal digit test. -/
def isDig (c : Char) : Bool :=
  48 ≤ c.toNat && c.toNat ≤ 57

/-- Value of one hexadecimal digit, with lower and upper letters accepted. -/
def hexDigVal (c : Char) : Option Nat :=
  let n := c.toNat
  if 48 ≤ n && n ≤ 57 then some (n - 48)
  else if 97 ≤ n && n ≤ 102 then some (n - 87)
  else if 65 ≤ n && n ≤ 70 then some (n - 55)
  else none

/-- Fold one more hexadecimal digit onto an accumulated value. -/
def hexStep (acc : Option Nat) (c : Char) : Option Nat :=
  match acc, hexDigVal c with
  | some v, some d => some (v * 16 + d)
  | _, _ => none

/-- Read four hexadecimal digits of a \u escape. -/
def readHex4 : List Char → Option (Nat × List Char)
  | a :: b :: c :: d :: rest =>
    match [a, b, c, d].foldl hexStep (some 0) with
    | some v => some (v, rest)
    | none => none
  | _ => none

/-- Translate a single-character escape; the \u form is handled separately. -/
def escChar (c : Char) : Option Char :=
  if c = '"' then some '"'
  else if c = '\\' then some '\\'
  else if c = '/' then some '/'
  else if c = 'b' then some (Char.ofNat 8)
  else if c = 'f' then some (Char.ofNat 12)
  else if c = 'n' then some '\n'
  else if c = 'r' then some '\r'
  else if c = 't' then some '\t'
  else none

/-- Decode the body of a JSON string after its opening quote, returning the
string and the input that follows the closing quote.  Escapes follow Go:
surrogate pairs combine, a lone surrogate becomes U+FFFD. -/
def readStringBody (fuel : Nat) (cs : List Char) (acc : List Char) :
    Option (String × List Char) :=
  match fuel with
  | 0 => none
  | Nat.succ f =>
    match cs with
    | [] => none
    | c :: rest =>
      if c = '"' then some (String.mk acc.reverse, rest)
      else if c = '\\' then
        match rest with
        | [] => none
        | e :: rest2 =>
          if e = 'u' then
            match readHex4 rest2 with
            | none => none
            | some (n, rest3) =>
              if 0xD800 ≤ n && n ≤ 0xDBFF then
                match rest3 with
                | '\\' :: 'u' :: rest4 =>
                  match readHex4 rest4 with
                  | some (n2, rest5) =>
                    if 0xDC00 ≤ n2 && n2 ≤ 0xDFFF then
                      let scalar := 65536 + ((n - 55296) <<< 10) + (n2 - 56320)
                      readStringBody f rest5 (Char.ofNat scalar :: acc)
                    else readStringBody f rest3 (Char.ofNat 0xFFFD :: acc)
                  | none => readStringBody f rest3 (Char.ofNat 0xFFFD :: acc)
                | _ => readStringBody f rest3 (Char.ofNat 0xFFFD :: acc)
              else if 0xDC00 ≤ n && n ≤ 0xDFFF then
                readStringBody f rest3 (Char.ofNat 0xFFFD :: acc)
              else readStringBody f rest3 (Char.ofNat n :: acc)
          else
            match escChar e with
            | some ch => readStringBody f rest2 (ch :: acc)
            | none => none
      else if c.toNat < 0x20 then none
      else readStringBody f rest (c :: acc)

/-- Read a JSON number lexeme (sign, integer part without leading zeros,
optional fraction, optional exponent), keeping the lexeme text. -/
def readNumLexeme (cs : List Char) : Option (String × List Char) :=
  let signed : List Char × List Char :=
    match cs with
    | '-' :: r => (['-'], r)
    | _ => ([], cs)
  let sign := signed.1
  let afterSign := signed.2
  let intPart : Option (List Char × List Char) :=
    match afterSign with
    | '0' :: r => some (['0'], r)
    | c :: _ =>
      if isDig c then
        let sp := afterSign.span isDig
        some (sp.1, sp.2)
      else none
    | [] => none
  match intPart with
  | none => none
  | some (ds, r1) =>
    let fracPart : Option (List Char × List Char) :=
      match r1 with
      | '.' :: r2 =>
        let sp := r2.span isDig
        if sp.1.isEmpty then none else some ('.' :: sp.1, sp.2)
      | _ => some ([], r1)
    match fracPart with
    | none => none
    | some (fs, r3) =>
      let expPart : Option (List Char × List Char) :=
        match r3 with
        | 'e' :: r4 =>
          let signedE : List Char × List Char :=
            match r4 with
            | '+' :: r5 => (['e', '+'], r5)
            | '-' :: r5 => (['e', '-'], r5)
            | _ => (['e'], r4)
          let sp := signedE.2.span isDig
          if sp.1.isEmpty then none else some (signedE.1 ++ sp.1, sp.2)
        | 'E' :: r4 =>
          let signedE : List Char × List Char :=
            match r4 with
            | '+' :: r5 => (['E', '+'], r5)
            | '-' :: r5 => (['E', '-'], r5)
            | _ => (['E'], r4)
          let sp := signedE.2.span isDig
          if sp.1.isEmpty then none else some (signedE.1 ++ sp.1, sp.2)
        | _ => some ([], r3)
      match expPart with
      | none => none
      | some (es, r6) => some (String.mk (sign ++ ds ++ fs ++ es), r6)

mutual

/-- Read one JSON value; fuel decreases on every nested call, so the parser is
total, and the fuel passed by `jparse` is generous enough for any input. -/
def readVal : Nat → List Char → Option (Json × List Char)
  | 0, _ => none
  | Nat.succ f, cs =>
    match dropWs cs with
    | [] => none
    | c :: rest =>
      if c = 'n' then
        match rest with
        | 'u' :: 'l' :: 'l' :: rest2 => some (Json.null, rest2)
        | _ => none
      else if c = 't' then
        match rest with
        | 'r' :: 'u' :: 'e' :: rest2 => some (Json.bool true, rest2)
        | _ => none
      else if c = 'f' then
        match rest with
        | 'a' :: 'l' :: 's' :: 'e' :: rest2 => some (Json.bool false, rest2)
        | _ => none
      else if c = '"' then
        match readStringBody (rest.length + 1) rest [] with
        | some (s, rest2) => some (Json.str s, rest2)
        | none => none
      else if c = '[' then
        match dropWs rest with
        | ']' :: rest2 => some (Json.arr [], rest2)
        | _ => readArrItems f rest []
      else if c = lbrace then
        match dropWs rest with
        | d :: rest2 =>
          if d = rbrace then some (Json.obj [], rest2)
          else readObjItems f rest []
        | [] => none
      else if c = '-' || isDig c then
        match readNumLexeme (c :: rest) with
        | some (lit, rest2) => some (Json.num lit, rest2)
        | none => none
      else none

/-- Read the comma-separated items of a non-empty array. -/
def readArrItems : Nat → List Char → List Json → Option (Json × List Char)
  | 0, _, _ => none
  | Nat.succ f, cs, acc =>
    match readVal f cs with
    | none => none
    | some (v, rest) =>
      match dropWs rest with
      | ',' :: rest2 => readArrItems f rest2 (acc ++ [v])
      | ']' :: rest2 => some (Json.arr (acc ++ [v]), rest2)
      | _ => none

/-- Read the comma-separated members of a non-empty object. -/
def readObjItems : Nat → List Char → List (String × Json) → Option (Json × List Char)
  | 0, _, _ => none
  | Nat.succ f, cs, acc =>
    match dropWs cs with
    | '"' :: rest =>
      match readStringBody (rest.length + 1) rest [] with
      | none => none
      | some (k, rest2) =>
        match dropWs rest2 with
        | ':' :: rest3 =>
          match readVal f rest3 with
          | none => none
          | some (v, rest4) =>
            match dropWs rest4 with
            | ',' :: rest5 => readObjItems f rest5 (acc ++ [(k, v)])
            | d :: rest5 =>
              if d = rbrace then some (Json.obj (acc ++ [(k, v)]), rest5)
              else none
            | [] => none
        | _ => none
    | _ => none

end

/-- Parse a whole string as a single JSON value, as json.Unmarshal does:
exactly one value, optionally surrounded by whitespace. -/
def jparse (s : String) : Option Json :=
  match readVal (s.length * 2 + 16) s.data with
  | some (j, rest) => if dropWs rest = [] then some j else none
  | none => none

/-! Target structs of internal/claude/claude.go, with the questions array of
the enhanced question schema (the struct literally used by handlers.go and
given verbatim in docs/plans/2026-02-17-feat-enhanced-question-schema-plan.md). -/

/-- Go struct claude.Option (label, description); named QOption because Lean
reserves the name Option. -/
structure QOption where
  label : String := ""
  description : String := ""
deriving DecidableEq

/-- Go struct claude.Question of the enhanced schema. -/
structure Question where
  header : String := ""
  text : String := ""
  multiSelect : Bool := false
  options : List QOption := []
deriving DecidableEq

/-- Go struct claude.Response of the enhanced schema. -/
structure Response where
  message : String := ""
  questions : List Question := []
  promptReady : Bool := false
  generatedTitle : String := ""
  generatedMotivation : String := ""
  generatedPrompt : String := ""
deriving DecidableEq

/-! Decoders mirroring json.Unmarshal into those structs.  Each decoder takes
the parsed JSON value; none models failure of Unmarshal (the callers only
branch on err == nil). -/

/-- Unmarshal a JSON value into a string field holding cur: null is a no-op,
a string stores, anything else is a type error. -/
def goStr (cur : String) : Json → Option String
  | Json.null => some cur
  | Json.str s => some s
  | _ => none

/-- Unmarshal a JSON value into a bool field holding cur. -/
def goBool (cur : Bool) : Json → Option Bool
  | Json.null => some cur
  | Json.bool b => some b
  | _ => none

/-- Unmarshal into a Go Option struct. -/
def decodeQOption : Json → Option QOption
  | Json.null => some {}
  | Json.obj fields =>
    fields.foldlM
      (fun acc kv =>
        if kv.1 = "label" then (goStr acc.label kv.2).map (fun s => { acc with label := s })
        else if kv.1 = "description" then
          (goStr acc.description kv.2).map (fun s => { acc with description := s })
        else some acc)
      {}
  | _ => none

/-- Unmarshal into a []Option slice field: null stores the empty slice. -/
def decodeQOptionList : Json → Option (List QOption)
  | Json.null => some []
  | Json.arr xs => xs.mapM decodeQOption
  | _ => none

/-- Unmarshal into a Go Question struct. -/
def decodeQuestion : Json → Option Question
  | Json.null => some {}
  | Json.obj fields =>
    fields.foldlM
      (fun acc kv =>
        if kv.1 = "header" then (goStr acc.header kv.2).map (fun s => { acc with header := s })
        else if kv.1 = "text" then (goStr acc.text kv.2).map (fun s => { acc with text := s })
        else if kv.1 = "multiSelect" then
          (goBool acc.multiSelect kv.2).map (fun b => { acc with multiSelect := b })
        else if kv.1 = "options" then
          (decodeQOptionList kv.2).map (fun os => { acc with options := os })
        else some acc)
      {}
  | _ => none

/-- Unmarshal into a []Question slice field. -/
def decodeQuestionList : Json → Option (List Question)
  | Json.null => some []
  | Json.arr xs => xs.mapM decodeQuestion
  | _ => none

/-- Unmarshal into a Go Response struct. -/
def decodeResponse : Json → Option Response
  | Json.null => some {}
  | Json.obj fields =>
    fields.foldlM
      (fun acc kv =>
        if kv.1 = "message" then (goStr acc.message kv.2).map (fun s => { acc with message := s })
        else if kv.1 = "questions" then
          (decodeQuestionList kv.2).map (fun qs => { acc with questions := qs })
        else if kv.1 = "prompt_ready" then
          (goBool acc.promptReady kv.2).map (fun b => { acc with promptReady := b })
        else if kv.1 = "generated_title" then
          (goStr acc.generatedTitle kv.2).map (fun s => { acc with generatedTitle := s })
        else if kv.1 = "generated_motivation" then
          (goStr acc.generatedMotivation kv.2).map (fun s => { acc with generatedMotivation := s })
        else if kv.1 = "generated_prompt" then
          (goStr acc.generatedPrompt kv.2).map (fun s => { acc with generatedPrompt := s })
        else some acc)
      {}
  | _ => none

/-- The outer envelope struct shared by parseResponse (claude.go) and
parseRawResponse (handlers.go): StructuredOutput *Response, Result string. -/
structure RespWrapper where
  structuredOutput : Option Response := none
  result : String := ""
deriving DecidableEq

/-- Unmarshal into a *Response pointer field: null stores nil, anything else
must decode as a Response. -/
def goRespPtr : Json → Option (Option Response)
  | Json.null => some none
  | j => (decodeResponse j).map some

/-- Unmarshal into the envelope struct. -/
def decodeRespWrapper : Json → Option RespWrapper
  | Json.null => some {}
  | Json.obj fields =>
    fields.foldlM
      (fun acc kv =>
        if kv.1 = "structured_output" then
          (goRespPtr kv.2).map (fun so => { acc with structuredOutput := so })
        else if kv.1 = "result" then
          (goStr acc.result kv.2).map (fun s => { acc with result := s })
        else some acc)
      {}
  | _ => none

/-! The legacy-only schema of extractLegacyQuestion (handlers.go): an isolated
anonymous struct targeting just the old singular question field.  Its option
struct has the same fields and tags as claude.Option, so QOption is reused. -/

/-- Legacy anonymous question struct: text plus options. -/
structure LegacyQuestion where
  text : String := ""
  options : List QOption := []
deriving DecidableEq

/-- Legacy anonymous structured-output struct: the singular question pointer. -/
structure LegacySO where
  question : Option LegacyQuestion := none
deriving DecidableEq

/-- Legacy anonymous wrapper struct: the structured-output pointer. -/
structure LegacyWrapper where
  structuredOutput : Option LegacySO := none
deriving DecidableEq

/-- Unmarshal into the legacy question struct. -/
def decodeLegacyQuestion : Json → Option LegacyQuestion
  | Json.null => some {}
  | Json.obj fields =>
    fields.foldlM
      (fun acc kv =>
        if kv.1 = "text" then (goStr acc.text kv.2).map (fun s => { acc with text := s })
        else if kv.1 = "options" then
          (decodeQOptionList kv.2).map (fun os => { acc with options := os })
        else some acc)
      {}
  | _ => none

/-- Unmarshal into the legacy structured-output struct. -/
def decodeLegacySO : Json → Option LegacySO
  | Json.null => some {}
  | Json.obj fields =>
    fields.foldlM
      (fun acc kv =>
        if kv.1 = "question" then
          match kv.2 with
          | Json.null => some { acc with question := none }
          | j => (decodeLegacyQuestion j).map (fun q => { acc with question := some q })
        else some acc)
      {}
  | _ => none

/-- Unmarshal into the legacy wrapper struct. -/
def decodeLegacyWrapper : Json → Option LegacyWrapper
  | Json.null => some {}
  | Json.obj fields =>
    fields.foldlM
      (fun acc kv =>
        if kv.1 = "structured_output" then
          match kv.2 with
          | Json.null => some { acc with structuredOutput := none }
          | j => (decodeLegacySO j).map (fun so => { acc with structuredOutput := some so })
        else some acc)
      {}
  | _ => none

/-! Embeddings of the parser functions themselves. -/

/-- The final stage of parseResponse (claude.go): parse the raw value directly
as the structured schema, accepting any successful decode. -/
def directParse (j : Json) : Option Response := decodeResponse j

/-- The final stage of parseRawResponse (handlers.go): parse the raw value
directly as the structured schema, accepting only a non-empty message. -/
def directParseChecked (j : Json) : Option Response :=
  match decodeResponse j with
  | some resp => if resp.message ≠ "" then some resp else none
  | none => none

/-- parseResponse of internal/claude/claude.go.  Returns none exactly when the
Go function returns a non-nil error. -/
def parseResponse (output : String) : Option Response :=
  match jparse output with
  | none => none
  | some j =>
    match decodeRespWrapper j with
    | some w =>
      match w.structuredOutput with
      | some so => some so
      | none =>
        if w.result ≠ "" then
          match jparse w.result with
          | some rj =>
            match decodeResponse rj with
            | some resp => some resp
            | none => some { message := w.result }
          | none => some { message := w.result }
        else directParse j
    | none => directParse j

/-- The tail of SendMessage (claude.go) after a successful subprocess run: a
parse failure degrades to the whole raw text as the assistant message. -/
def sendMessageParse (rawJSON : String) : Response :=
  match parseResponse rawJSON with
  | some resp => resp
  | none => { message := rawJSON }

/-- parseRawResponse of internal/server/handlers.go.  Unlike parseResponse, a
failed decode of the Result string falls through to the direct parse, and the
direct parse is accepted only when the message field is non-empty. -/
def parseRawResponse (rawJSON : String) : Option Response :=
  match jparse rawJSON with
  | none => none
  | some j =>
    match decodeRespWrapper j with
    | some w =>
      match w.structuredOutput with
      | some so => some so
      | none =>
        if w.result ≠ "" then
          match jparse w.result with
          | some rj =>
            match decodeResponse rj with
            | some resp => some resp
            | none => directParseChecked j
          | none => directParseChecked j
        else directParseChecked j
    | none => directParseChecked j

/-- View model of one option in handlers.go (optionData). -/
structure optionData where
  label : String := ""
  description : String := ""
deriving DecidableEq

/-- View model of one question in handlers.go (questionData). -/
structure questionData where
  header : String := ""
  text : String := ""
  multiSelect : Bool := false
  options : List optionData := []
  index : Nat := 0
deriving DecidableEq

/-- extractLegacyQuestion of handlers.go: re-decode the same raw bytes against
the legacy-only schema and normalize the singular question at index 0. -/
def extractLegacyQuestion (rawJSON : String) : List questionData :=
  match jparse rawJSON with
  | none => []
  | some j =>
    match decodeLegacyWrapper j with
    | none => []
    | some legacy =>
      match legacy.structuredOutput with
      | none => []
      | some so =>
        match so.question with
        | none => []
        | some q =>
          [{ text := q.text, index := 0,
             options := q.options.map (fun o => { label := o.label, description := o.description }) }]

/-- extractQuestionsFromRaw of handlers.go: primary decode first; when its
question list is empty, fall back to the legacy singular question; the
prompt-ready flag always comes from the primary decode. -/
def extractQuestionsFromRaw (rawJSON : String) : List questionData × Bool :=
  match parseRawResponse rawJSON with
  | none => ([], false)
  | some resp =>
    if resp.questions.length = 0 then
      (extractLegacyQuestion rawJSON, resp.promptReady)
    else
      (resp.questions.enum.map (fun iq =>
        { header := iq.2.header, text := iq.2.text, multiSelect := iq.2.multiSelect,
          index := iq.1,
          options := iq.2.options.map (fun o => { label := o.label, description := o.description }) }),
       resp.promptReady)

/-! Data model rows (internal/models/models.go, with the after-message anchor
added by the revision-anchoring feature and scanned by internal/db/queries.go).
Timestamps are kept as opaque strings, exactly as the sqlite layer stores them;
list order stands for the ORDER BY created_at or published_at ASC of the
queries. -/

/-- models.Message. -/
structure Message where
  id : Int
  promptRequestId : Int := 0
  role : String
  content : String := ""
  rawResponse : Option String := none
  createdAt : String := ""
deriving DecidableEq

/-- models.Revision. -/
structure Revision where
  id : Int
  promptRequestId : Int := 0
  content : String := ""
  afterMessageID : Option Int := none
  publishedAt : String := ""
deriving DecidableEq

/-- timelineItem of handlers.go: the Type string discriminates which pointer is
set, so the struct is a sum. -/
inductive timelineItem where
  | message (m : Message)
  | revisionMarker (r : Revision)
deriving DecidableEq

/-- Loop body of the first pass of buildTimeline: an anchored revision is
appended under its anchor key, an unanchored one to the orphan list. -/
def revisionIndexStep (acc : (Int → List Revision) × List Revision) (rev : Revision) :
    (Int → List Revision) × List Revision :=
  match rev.afterMessageID with
  | some k => (fun k2 => if k2 = k then acc.1 k2 ++ [rev] else acc.1 k2, acc.2)
  | none => (acc.1, acc.2 ++ [rev])

/-- The first loop of buildTimeline: one pass over the revisions builds the
anchor-keyed map (appending per key, an absent key reading as the empty list)
and the orphan list. -/
def revisionIndex (revisions : List Revision) :
    (Int → List Revision) × List Revision :=
  revisions.foldl revisionIndexStep (fun _ => [], [])

/-- buildTimeline of handlers.go: messages in order, each immediately followed
by the revisions anchored to it, then the orphan revisions. -/
def buildTimeline (messages : List Message) (revisions : List Revision) :
    List timelineItem :=
  (messages.flatMap (fun m =>
    timelineItem.message m :: ((revisionIndex revisions).1 m.id).map timelineItem.revisionMarker))
    ++ (revisionIndex revisions).2.map timelineItem.revisionMarker

/-! Provisioning status (internal/server/server.go) and the auto-dispatch CAS
of handleRepoStatus (handlers.go).  The sync.Map entry for one prompt request
is a single cell; CompareAndSwap swaps exactly when the key is present and the
current entry equals the old one. -/

/-- repoStatusEntry of server.go. -/
structure repoStatusEntry where
  status : String := ""
  error : String := ""
deriving DecidableEq

/-- getRepoStatus of server.go: a missing entry reads as the zero entry. -/
def getRepoStatus (cell : Option repoStatusEntry) : repoStatusEntry :=
  match cell with
  | none => {}
  | some e => e

/-- sync.Map.CompareAndSwap on the one cell: returns whether it swapped and the
new cell contents. -/
def casEntry (cell : Option repoStatusEntry) (old new : repoStatusEntry) :
    Bool × Option repoStatusEntry :=
  if cell = some old then (true, some new) else (false, cell)

/-- Server restart recovery of handleRepoStatus (and getRepoStatus callers):
with no tracked status, probe the filesystem; a present completion marker
synthesizes ready, otherwise record cloning and start a provisioning worker.
Returns the entry the poller continues with, the entry stored, and whether a
background clone worker was started. -/
def repoStatusRecovery (entry : repoStatusEntry) (cloned : Bool) :
    repoStatusEntry × Option repoStatusEntry × Bool :=
  if entry.status = "" then
    if cloned then ({ status := "ready" }, some { status := "ready" }, false)
    else ({ status := "cloning" }, some { status := "cloning" }, true)
  else (entry, none, false)

/-- Local state of one status poller running the auto-dispatch fragment of
handleRepoStatus: a program counter, the entry it observed, whether it
attempted the CAS, whether its CAS succeeded, and the entry it displays. -/
structure PollerCtx where
  pc : Nat := 0
  obs : Option repoStatusEntry := none
  attempted : Bool := false
  won : Bool := false
  display : Option repoStatusEntry := none
deriving DecidableEq

/-- Shared and local state for two concurrent pollers of the same prompt
request: the status cell, both poller contexts, and the background workers
started so far (false names the first poller, true the second). -/
structure PollSys where
  cell : Option repoStatusEntry := none
  p0 : PollerCtx := {}
  p1 : PollerCtx := {}
  workers : List Bool := []
deriving DecidableEq

/-- One atomic step of one poller.  Step 0 is the sync.Map read behind
getRepoStatus; step 1 is the ready-with-pending-user-message branch: attempt
the CAS from ready to processing, start the background worker exactly when the
CAS succeeded, and display processing; a poller that observed anything else
displays its observation unchanged. -/
def pollStep (lastRole : String) (who : Bool) (s : PollSys) : PollSys :=
  let ctx := if who then s.p1 else s.p0
  match ctx.pc with
  | 0 =>
    let ctx2 := { ctx with pc := 1, obs := some (getRepoStatus s.cell) }
    if who then { s with p1 := ctx2 } else { s with p0 := ctx2 }
  | 1 =>
    let entry := (ctx.obs).getD {}
    if entry.status = "ready" && lastRole = "user" then
      let r := casEntry s.cell { status := "ready" } { status := "processing" }
      let disp : Option repoStatusEntry := some { status := "processing" }
      let ctx2 := { ctx with pc := 2, attempted := true, won := r.1, display := disp }
      let ws := if r.1 then s.workers ++ [who] else s.workers
      let s2 := { s with cell := r.2, workers := ws }
      if who then { s2 with p1 := ctx2 } else { s2 with p0 := ctx2 }
    else
      let ctx2 := { ctx with pc := 2, display := some entry }
      if who then { s with p1 := ctx2 } else { s with p0 := ctx2 }
  | _ => s

/-- Run a schedule of poller steps; the schedule lists which poller takes each
atomic step. -/
def pollExec (lastRole : String) (sched : List Bool) (s : PollSys) : PollSys :=
  sched.foldl (fun st who => pollStep lastRole who st) s

/-- Initial state of the auto-dispatch race: the provisioning entry is ready. -/
def pollInit : PollSys := { cell := some { status := "ready" } }

/-! backgroundSendMessage (handlers.go).  The storage collaborator is modelled
as always succeeding; the two GetLastMessage reads are taken from the message
list as stored before and after the session mutex acquisition, since a manual
send may commit in between. -/

/-- Observable effects of one backgroundSendMessage run: whether the external
subprocess was called (and with which resume flag), the messages persisted as
(role, content) pairs, the final provisioning status, and a title update. -/
structure WorkerEffects where
  called : Option Bool := none
  persisted : List (String × String) := []
  finalStatus : String := ""
  newTitle : Option String := none
deriving DecidableEq

/-- Title truncation of backgroundSendMessage (len > 60 cut to 60 plus an
ellipsis; Go slices bytes, modelled on characters). -/
def truncateTitle (s : String) : String :=
  if s.length > 60 then s.take 60 ++ "..." else s

/-- backgroundSendMessage of handlers.go, parameterized by the prompt request
title, the stored messages before and after the lock acquisition, and the
outcome of the claude.SendMessage call. -/
def backgroundSendMessage (prTitle : String)
    (msgsPreLock msgsPostLock : List Message)
    (claudeResult : Except String Response) : WorkerEffects :=
  match msgsPreLock.getLast? with
  | none => { finalStatus := "ready" }
  | some lastMsg =>
    if lastMsg.role ≠ "user" then { finalStatus := "ready" }
    else
      match msgsPostLock.getLast? with
      | none => { finalStatus := "ready" }
      | some lastMsg2 =>
        if lastMsg2.role ≠ "user" then { finalStatus := "ready" }
        else
          let resume := msgsPostLock.any (fun m =>
            m.id < lastMsg2.id && m.role = "assistant")
          match claudeResult with
          | Except.error e =>
            { called := some resume,
              persisted := [("assistant", "Sorry, I encountered an error: " ++ e)],
              finalStatus := "responded" }
          | Except.ok resp =>
            { called := some resume,
              persisted := [("assistant", resp.message)],
              finalStatus := "responded",
              newTitle :=
                if prTitle = "" then
                  if resp.generatedTitle ≠ "" then some resp.generatedTitle
                  else if resp.message ≠ "" then some (truncateTitle resp.message)
                  else none
                else
                  if resp.generatedTitle ≠ "" then some resp.generatedTitle
                  else none }

/-! The pending-question and prompt-ready computation of handleShow
(handlers.go), lines 1899-1915. -/

/-- handleShow question extraction: the last message, when an assistant message
with a stored raw response, provides the questions and the prompt-ready flag;
the flag is then suppressed when the latest revision anchor shows nothing was
said after the last publish. -/
def showQuestionState (messages : List Message) (revisions : List Revision) :
    List questionData × Bool :=
  match messages.getLast? with
  | none => ([], false)
  | some last =>
    let base : List questionData × Bool :=
      match last.rawResponse with
      | some raw =>
        if last.role = "assistant" then extractQuestionsFromRaw raw else ([], false)
      | none => ([], false)
    if base.2 then
      match revisions.getLast? with
      | some latestRev =>
        match latestRev.afterMessageID with
        | some anchor => if last.id ≤ anchor then (base.1, false) else base
        | none => base
      | none => base
    else base

/-! Relational model of the prompt-request store (internal/db/queries.go) for
the soft-delete claim.  The now argument stands for datetime of the statement
execution. -/

/-- One prompt_requests row (models.PromptRequest, stored columns only). -/
structure PromptRequestRow where
  id : Int
  repositoryId : Int := 0
  title : String := ""
  status : String := "draft"
  sessionId : String := ""
  issueNumber : Option Int := none
  issueUrl : Option String := none
  createdAt : String := ""
  updatedAt : String := ""
deriving DecidableEq

/-- The three tables the delete and list queries touch. -/
structure Store where
  promptRequests : List PromptRequestRow := []
  messages : List Message := []
  revisions : List Revision := []
deriving DecidableEq

/-- UpdatePromptRequestStatus of queries.go: SET status, updated_at WHERE id. -/
def UpdatePromptRequestStatus (db : Store) (id : Int) (status now : String) : Store :=
  { db with promptRequests := db.promptRequests.map (fun r =>
      if r.id = id then { r with status := status, updatedAt := now } else r) }

/-- DeletePromptRequest of queries.go: a status update to deleted. -/
def DeletePromptRequest (db : Store) (id : Int) (now : String) : Store :=
  UpdatePromptRequestStatus db id "deleted" now

/-- ListPromptRequests of queries.go restricted to the stored rows: the WHERE
clause excludes deleted rows.  The joined url and count columns and the ORDER
BY updated_at DESC do not affect which requests are listed and are not
modelled. -/
def ListPromptRequests (db : Store) : List PromptRequestRow :=
  db.promptRequests.filter (fun r => r.status ≠ "deleted")

/-! Theorems settling the claims. -/

/-- C8: when a status poll finds no in-memory provisioning entry for a
conversation, the read does not fail but yields the zero entry; recovery then
probes the filesystem for the completion marker, synthesizes a ready status
when the marker is present, and otherwise records cloning and starts a fresh
background provisioning worker. -/
theorem repoStatus_restart_recovery (cell : Option repoStatusEntry) (cloned : Bool)
    (h : cell = none) :
    getRepoStatus cell = {} ∧
    (cloned = true → repoStatusRecovery (getRepoStatus cell) cloned =
      ({ status := "ready" }, some { status := "ready" }, false)) ∧
    (cloned = false → repoStatusRecovery (getRepoStatus cell) cloned =
      ({ status := "cloning" }, some { status := "cloning" }, true)) := by
  subst h
  refine ⟨rfl, ?_, ?_⟩ <;> intro hc <;> subst hc <;> rfl

/-- Witness for the C8 theorem at a concrete absent entry without a marker. -/
theorem repoStatus_restart_recovery_witness :
    repoStatusRecovery (getRepoStatus none) false =
      ({ status := "cloning" }, some { status := "cloning" }, true) :=
  (repoStatus_restart_recovery none false rfl).2.2 rfl

/-- C5: for every raw output text of a successful subprocess invocation,
SendMessage never returns a parse failure: when parseResponse fails, the
returned Response carries the entire raw text as the assistant message
content, and otherwise the parsed response is returned unchanged. -/
theorem sendMessage_never_parse_failure (raw : String) :
    (parseResponse raw = none → sendMessageParse raw = { message := raw }) ∧
    (∀ resp, parseResponse raw = some resp → sendMessageParse raw = resp) := by
  constructor
  · intro h
    simp [sendMessageParse, h]
  · intro resp h
    simp [sendMessageParse, h]

/-- Witness for the C5 theorem on concretely malformed subprocess output. -/
theorem sendMessage_never_parse_failure_witness :
    sendMessageParse "not json" = { message := "not json" } :=
  (sendMessage_never_parse_failure "not json").1 (by decide)

/-- C10 counterexample: deleting a prompt request does not leave every other
field unchanged — the updated-at column is rewritten to the deletion time, as
the UPDATE statement sets both status and updated_at. -/
theorem deletePromptRequest_touches_updatedAt :
    (DeletePromptRequest
        { promptRequests := [{ id := 1, updatedAt := "2026-02-17 10:00:00" }] }
        1 "2026-02-18 09:00:00").promptRequests =
      [{ id := 1, status := "deleted", updatedAt := "2026-02-18 09:00:00" }] ∧
    "2026-02-18 09:00:00" ≠ "2026-02-17 10:00:00" :=
  ⟨rfl, by decide⟩

/-- C10 (amended): deleting a prompt request is a soft delete: the row stays
stored and only its status (set to deleted) and its updated-at timestamp
change; every other column, every other row, and the messages and revisions
tables are untouched, and listings exclude every deleted request. -/
theorem deletePromptRequest_soft (db : Store) (id : Int) (now : String) :
    (DeletePromptRequest db id now).messages = db.messages ∧
    (DeletePromptRequest db id now).revisions = db.revisions ∧
    (DeletePromptRequest db id now).promptRequests.length = db.promptRequests.length ∧
    (∀ r, r ∈ db.promptRequests → r.id ≠ id →
      r ∈ (DeletePromptRequest db id now).promptRequests) ∧
    (∀ r, r ∈ db.promptRequests → r.id = id →
      { r with status := "deleted", updatedAt := now } ∈
        (DeletePromptRequest db id now).promptRequests) ∧
    (∀ r, r ∈ ListPromptRequests (DeletePromptRequest db id now) →
      r.status ≠ "deleted" ∧ r.id ≠ id) := by
  refine ⟨rfl, rfl, ?_, ?_, ?_, ?_⟩
  · simp [DeletePromptRequest, UpdatePromptRequestStatus]
  · intro r hr hne
    simp only [DeletePromptRequest, UpdatePromptRequestStatus, List.mem_map]
    exact ⟨r, hr, by simp [hne]⟩
  · intro r hr he
    simp only [DeletePromptRequest, UpdatePromptRequestStatus, List.mem_map]
    exact ⟨r, hr, by simp [he]⟩
  · intro r hr
    simp only [ListPromptRequests, List.mem_filter, DeletePromptRequest,
      UpdatePromptRequestStatus, List.mem_map] at hr
    obtain ⟨⟨orig, horig, heq⟩, hst⟩ := hr
    by_cases hid : orig.id = id
    · exfalso
      rw [← heq] at hst
      simp [hid] at hst
    · rw [← heq] at hst ⊢
      simp only [hid, if_false]
      simp only [hid, if_false] at hst
      exact ⟨by simpa using hst, hid⟩

/-- Witness for the C10 amended theorem at a concrete two-row store. -/
theorem deletePromptRequest_soft_witness :
    ({ id := 2, title := "keep" } : PromptRequestRow) ∈
      (DeletePromptRequest
        { promptRequests := [{ id := 1 }, { id := 2, title := "keep" }] }
        1 "2026-02-18 09:00:00").promptRequests :=
  (deletePromptRequest_soft
      { promptRequests := [{ id := 1 }, { id := 2, title := "keep" }] }
      1 "2026-02-18 09:00:00").2.2.2.1
    { id := 2, title := "keep" } (by decide) (by decide)

/-- C3: from a ready provisioning entry with the most recent message authored
by the user, any interleaving of two concurrent status pollers starts exactly
one background worker, leaves the entry at processing, and shows processing to
both pollers; when both pollers observed ready, both attempt the
compare-and-swap and exactly one of them wins, and only the winner starts the
worker that performs the subprocess call. -/
theorem autoDispatch_single_winner (a b c d : Bool)
    (hc : [a, b, c, d].count true = 2 ∧ [a, b, c, d].count false = 2) :
    ((pollExec "user" [a, b, c, d] pollInit).workers.length = 1) ∧
    ((pollExec "user" [a, b, c, d] pollInit).cell = some { status := "processing" }) ∧
    ((pollExec "user" [a, b, c, d] pollInit).p0.display = some { status := "processing" }) ∧
    ((pollExec "user" [a, b, c, d] pollInit).p1.display = some { status := "processing" }) ∧
    ((pollExec "user" [a, b, c, d] pollInit).p0.won = true →
      (pollExec "user" [a, b, c, d] pollInit).workers = [false]) ∧
    ((pollExec "user" [a, b, c, d] pollInit).p1.won = true →
      (pollExec "user" [a, b, c, d] pollInit).workers = [true]) ∧
    ¬((pollExec "user" [a, b, c, d] pollInit).p0.won = true ∧
      (pollExec "user" [a, b, c, d] pollInit).p1.won = true) ∧
    ((pollExec "user" [a, b, c, d] pollInit).p0.obs = some { status := "ready" } ∧
        (pollExec "user" [a, b, c, d] pollInit).p1.obs = some { status := "ready" } →
      (pollExec "user" [a, b, c, d] pollInit).p0.attempted = true ∧
      (pollExec "user" [a, b, c, d] pollInit).p1.attempted = true ∧
      (pollExec "user" [a, b, c, d] pollInit).p0.won ≠
        (pollExec "user" [a, b, c, d] pollInit).p1.won) := by
  revert hc
  revert a b c d
  decide

/-- Witness for the C3 theorem on the fully interleaved schedule. -/
theorem autoDispatch_single_winner_witness :
    (pollExec "user" [false, true, false, true] pollInit).workers.length = 1 :=
  (autoDispatch_single_winner false true false true (by decide)).1

/-- C4: after acquiring the session mutex the auto-dispatch worker re-validates
that the last message still has role user.  When it does not (a manual send
answered it in between) the worker performs no subprocess call, persists no
message, and restores the ready status; when it does, the worker performs the
external call and, whether the call succeeds or degrades to an apologetic
error text, persists exactly one assistant message and sets the status to
responded. -/
theorem worker_revalidates_after_lock (prTitle : String)
    (msgsPre msgsPost : List Message) (cr : Except String Response) (lastPre : Message)
    (hpre : msgsPre.getLast? = some lastPre) (hrole : lastPre.role = "user") :
    (∀ lastPost, msgsPost.getLast? = some lastPost → lastPost.role ≠ "user" →
      backgroundSendMessage prTitle msgsPre msgsPost cr = { finalStatus := "ready" }) ∧
    (msgsPost.getLast? = none →
      backgroundSendMessage prTitle msgsPre msgsPost cr = { finalStatus := "ready" }) ∧
    (∀ lastPost, msgsPost.getLast? = some lastPost → lastPost.role = "user" →
      (backgroundSendMessage prTitle msgsPre msgsPost cr).called ≠ none ∧
      (backgroundSendMessage prTitle msgsPre msgsPost cr).finalStatus = "responded" ∧
      ∃ content, (backgroundSendMessage prTitle msgsPre msgsPost cr).persisted =
        [("assistant", content)]) := by
  refine ⟨?_, ?_, ?_⟩
  · intro lastPost hpost hne
    simp only [backgroundSendMessage, hpre, hrole, hpost]
    simp [hne]
  · intro hpost
    simp [backgroundSendMessage, hpre, hrole, hpost]
  · intro lastPost hpost he
    simp only [backgroundSendMessage, hpre, hrole, hpost]
    cases cr with
    | error e => simp [he]
    | ok resp => simp [he]

/-- Witness for the C4 theorem: a concrete run where the re-check still sees a
pending user message and the subprocess call succeeds. -/
theorem worker_revalidates_after_lock_witness :
    (backgroundSendMessage "" [{ id := 1, role := "user" }] [{ id := 1, role := "user" }]
      (Except.ok { message := "hello" })).finalStatus = "responded" :=
  ((worker_revalidates_after_lock "" [{ id := 1, role := "user" }]
      [{ id := 1, role := "user" }] (Except.ok { message := "hello" })
      { id := 1, role := "user" } (by decide) (by decide)).2.2
    { id := 1, role := "user" } (by decide) (by decide)).2.1

/-- C9: in the conversation view, when the last message is an assistant message
whose stored raw response sets the prompt-ready flag but the latest revision
carries an anchor at least the last message id, the view reports prompt-ready
false; in every other case it reports exactly the flag extracted from the raw
response. -/
theorem showPromptReady_gating (ms : List Message) (rs : List Revision)
    (last : Message) (raw : String)
    (hlast : ms.getLast? = some last) (hrole : last.role = "assistant")
    (hraw : last.rawResponse = some raw) :
    ((extractQuestionsFromRaw raw).2 = true →
      (∀ latestRev anchor, rs.getLast? = some latestRev →
        latestRev.afterMessageID = some anchor → last.id ≤ anchor →
        (showQuestionState ms rs).2 = false) ∧
      (∀ latestRev anchor, rs.getLast? = some latestRev →
        latestRev.afterMessageID = some anchor → anchor < last.id →
        (showQuestionState ms rs).2 = (extractQuestionsFromRaw raw).2) ∧
      (∀ latestRev, rs.getLast? = some latestRev → latestRev.afterMessageID = none →
        (showQuestionState ms rs).2 = (extractQuestionsFromRaw raw).2) ∧
      (rs.getLast? = none → (showQuestionState ms rs).2 = (extractQuestionsFromRaw raw).2)) ∧
    ((extractQuestionsFromRaw raw).2 = false →
      (showQuestionState ms rs).2 = (extractQuestionsFromRaw raw).2) := by
  constructor
  · intro hflag
    refine ⟨?_, ?_, ?_, ?_⟩
    · intro latestRev anchor hrev hanc hle
      simp [showQuestionState, hlast, hrole, hraw, hflag, hrev, hanc, hle]
    · intro latestRev anchor hrev hanc hlt
      simp [showQuestionState, hlast, hrole, hraw, hflag, hrev, hanc, not_le.mpr hlt]
    · intro latestRev hrev hanc
      simp [showQuestionState, hlast, hrole, hraw, hflag, hrev, hanc]
    · intro hrev
      simp [showQuestionState, hlast, hrole, hraw, hflag, hrev]
  · intro hflag
    simp [showQuestionState, hlast, hrole, hraw, hflag]

/-- Witness for the C9 theorem: a prompt-ready response suppressed by a
revision anchored at the last message. -/
theorem showPromptReady_gating_witness :
    (showQuestionState
      [{ id := 1, role := "assistant",
         rawResponse := some "\x7b\"structured_output\":\x7b\"message\":\"ok\",\"prompt_ready\":true\x7d\x7d" }]
      [{ id := 5, afterMessageID := some 1 }]).2 = false :=
  ((showPromptReady_gating
      [{ id := 1, role := "assistant",
         rawResponse := some "\x7b\"structured_output\":\x7b\"message\":\"ok\",\"prompt_ready\":true\x7d\x7d" }]
      [{ id := 5, afterMessageID := some 1 }]
      { id := 1, role := "assistant",
        rawResponse := some "\x7b\"structured_output\":\x7b\"message\":\"ok\",\"prompt_ready\":true\x7d\x7d" }
      "\x7b\"structured_output\":\x7b\"message\":\"ok\",\"prompt_ready\":true\x7d\x7d"
      (by decide) (by decide) (by decide)).1 (by decide)).1
    { id := 5, afterMessageID := some 1 } 1 (by decide) (by decide) (by decide)

/-- The first pass of buildTimeline keys each anchored revision under its
anchor, in input order, and gathers the unanchored ones in input order. -/
theorem revisionIndex_go (rs : List Revision)
    (acc : (Int → List Revision) × List Revision) :
    (∀ k, (rs.foldl revisionIndexStep acc).1 k =
      acc.1 k ++ rs.filter (fun r => r.afterMessageID = some k)) ∧
    (rs.foldl revisionIndexStep acc).2 =
      acc.2 ++ rs.filter (fun r => r.afterMessageID = none) := by
  induction rs generalizing acc with
  | nil => simp
  | cons r rs ih =>
    rw [List.foldl_cons]
    constructor
    · intro k
      rw [(ih (revisionIndexStep acc r)).1 k, List.filter_cons]
      cases hr : r.afterMessageID with
      | none => simp [revisionIndexStep, hr]
      | some k0 =>
        by_cases hk : k0 = k
        · subst hk
          simp [revisionIndexStep, hr, List.append_assoc]
        · have : ¬(r.afterMessageID = some k) := by simp [hr, hk]
          simp [revisionIndexStep, hr, this, hk, Ne.symm hk]
    · rw [(ih (revisionIndexStep acc r)).2, List.filter_cons]
      cases hr : r.afterMessageID with
      | none => simp [revisionIndexStep, hr, List.append_assoc]
      | some k0 => simp [revisionIndexStep, hr]

/-- buildTimeline rewritten pointwise: each message block carries the
revisions anchored to that message, and the orphans close the timeline. -/
theorem buildTimeline_eq (ms : List Message) (rs : List Revision) :
    buildTimeline ms rs =
      ms.flatMap (fun m => timelineItem.message m ::
        (rs.filter (fun r => r.afterMessageID = some m.id)).map timelineItem.revisionMarker)
      ++ (rs.filter (fun r => r.afterMessageID = none)).map timelineItem.revisionMarker := by
  have h1 : ∀ k, (revisionIndex rs).1 k = rs.filter (fun r => r.afterMessageID = some k) := by
    intro k
    have := (revisionIndex_go rs (fun _ => [], [])).1 k
    simpa [revisionIndex] using this
  have h2 : (revisionIndex rs).2 = rs.filter (fun r => r.afterMessageID = none) := by
    have := (revisionIndex_go rs (fun _ => [], [])).2
    simpa [revisionIndex] using this
  unfold buildTimeline
  rw [h2]
  simp only [h1]

/-- Revision markers are injectively tagged timeline items. -/
theorem revisionMarker_injective : Function.Injective timelineItem.revisionMarker := by
  intro x y h
  injection h

/-- Projecting messages out of a run of revision markers yields nothing. -/
theorem filterMap_markers_nil (l : List Revision) :
    (l.map timelineItem.revisionMarker).filterMap
      (fun it => match it with
        | timelineItem.message m => some m
        | timelineItem.revisionMarker _ => none) = [] := by
  induction l with
  | nil => rfl
  | cons x l ih => simp [ih]

/-- Projecting messages out of the rewritten timeline blocks recovers exactly
the message list. -/
theorem filterMap_messages (ms : List Message) (rs : List Revision) :
    (ms.flatMap (fun m => timelineItem.message m ::
      (rs.filter (fun r => r.afterMessageID = some m.id)).map
        timelineItem.revisionMarker)).filterMap
      (fun it => match it with
        | timelineItem.message m => some m
        | timelineItem.revisionMarker _ => none) = ms := by
  induction ms with
  | nil => rfl
  | cons m ms ih =>
    rw [List.flatMap_cons, List.filterMap_append]
    simp [filterMap_markers_nil, ih]

/-- Counting one anchored revision marker inside a single message block of the
rewritten timeline. -/
theorem count_marker_block (m : Message) (rs : List Revision) (r : Revision) :
    (timelineItem.message m ::
      (rs.filter (fun x => x.afterMessageID = some m.id)).map timelineItem.revisionMarker).count
      (timelineItem.revisionMarker r) =
    if r.afterMessageID = some m.id then rs.count r else 0 := by
  rw [List.count_cons]
  simp only [List.count_map_of_injective _ _ revisionMarker_injective]
  by_cases hp : r.afterMessageID = some m.id
  · rw [List.count_filter (by simpa using hp)]
    simp [hp]
  · rw [List.count_eq_zero_of_not_mem (fun hmem => hp (by simpa using (List.mem_filter.mp hmem).2))]
    simp [hp]

/-- Counting one anchored revision marker across all message blocks: each
message whose id equals the anchor contributes the full multiplicity. -/
theorem count_marker_flatMap (ms : List Message) (rs : List Revision) (r : Revision)
    (k : Int) (hk : r.afterMessageID = some k) :
    (ms.flatMap (fun m => timelineItem.message m ::
      (rs.filter (fun x => x.afterMessageID = some m.id)).map timelineItem.revisionMarker)).count
      (timelineItem.revisionMarker r) =
    ms.countP (fun m => m.id = k) * rs.count r := by
  induction ms with
  | nil => simp
  | cons m ms ih =>
    rw [List.flatMap_cons, List.count_append, ih, count_marker_block, List.countP_cons]
    by_cases hm : m.id = k
    · have : r.afterMessageID = some m.id := by rw [hk, hm]
      simp [this, hm, Nat.add_mul, Nat.add_comm]
    · have : ¬(r.afterMessageID = some m.id) := by
        rw [hk]
        simp
        intro he
        exact hm he.symm
      simp [this, hm]

/-- With pairwise-distinct message ids, a key that occurs occurs exactly once. -/
theorem countP_id_eq_one (ms : List Message) (k : Int)
    (hids : ms.Pairwise (fun m1 m2 => m1.id ≠ m2.id))
    (hex : ∃ m ∈ ms, m.id = k) :
    ms.countP (fun m => m.id = k) = 1 := by
  induction ms with
  | nil => simp at hex
  | cons m ms ih =>
    rw [List.countP_cons]
    rcases hex with ⟨m0, hm0, hk0⟩
    rcases List.mem_cons.mp hm0 with he | ht
    · subst he
      have h0 : ms.countP (fun x => x.id = k) = 0 := by
        rw [List.countP_eq_zero]
        intro a ha
        have hne := (List.pairwise_cons.mp hids).1 a ha
        simp
        rw [← hk0]
        exact fun hc => hne hc.symm
      simp [h0, hk0]
    · have h1 := ih (List.pairwise_cons.mp hids).2 ⟨m0, ht, hk0⟩
      have hne : ¬(m.id = k) := by
        have := (List.pairwise_cons.mp hids).1 m0 ht
        rw [← hk0]
        exact this
      simp [h1, hne]

/-- C2 counterexample: a revision whose anchor matches no listed message is
silently dropped by buildTimeline rather than emitted, so reconstruction does
not emit every input revision. -/
theorem buildTimeline_drops_dangling :
    buildTimeline [{ id := 1, role := "user" }] [{ id := 7, afterMessageID := some 99 }] =
      [timelineItem.message { id := 1, role := "user" }] ∧
    (buildTimeline [{ id := 1, role := "user" }]
        [{ id := 7, afterMessageID := some 99 }]).count
      (timelineItem.revisionMarker { id := 7, afterMessageID := some 99 }) = 0 := by
  constructor
  · rfl
  · rfl

/-- C2 (amended): provided message ids are pairwise distinct and every non-null
revision anchor references a listed message — the data-model invariant —
timeline reconstruction emits the messages in their given order, emits each
input revision exactly once, places each anchored revision immediately after
its anchor message, and appends the unanchored revisions at the end in their
publish order; a revision whose anchor references no listed message would be
dropped. -/
theorem buildTimeline_interleaves (ms : List Message) (rs : List Revision)
    (hids : ms.Pairwise (fun m1 m2 => m1.id ≠ m2.id))
    (hanchor : ∀ r ∈ rs, r.afterMessageID = none ∨ ∃ m ∈ ms, some m.id = r.afterMessageID) :
    buildTimeline ms rs =
      ms.flatMap (fun m => timelineItem.message m ::
        (rs.filter (fun r => r.afterMessageID = some m.id)).map timelineItem.revisionMarker)
      ++ (rs.filter (fun r => r.afterMessageID = none)).map timelineItem.revisionMarker ∧
    (buildTimeline ms rs).filterMap
      (fun it => match it with
        | timelineItem.message m => some m
        | timelineItem.revisionMarker _ => none) = ms ∧
    (∀ r ∈ rs, (buildTimeline ms rs).count (timelineItem.revisionMarker r) = rs.count r) := by
  refine ⟨buildTimeline_eq ms rs, ?_, ?_⟩
  · rw [buildTimeline_eq, List.filterMap_append, filterMap_markers_nil,
      List.append_nil, filterMap_messages]
  · intro r hr
    rw [buildTimeline_eq, List.count_append]
    cases hra : r.afterMessageID with
    | none =>
      have hz : (ms.flatMap (fun m => timelineItem.message m ::
          (rs.filter (fun x => x.afterMessageID = some m.id)).map
            timelineItem.revisionMarker)).count (timelineItem.revisionMarker r) = 0 := by
        apply List.count_eq_zero_of_not_mem
        intro hmem
        rcases List.mem_flatMap.mp hmem with ⟨m, _, hin⟩
        rcases List.mem_cons.mp hin with habs | hin2
        · exact absurd habs (by simp)
        · rcases List.mem_map.mp hin2 with ⟨r2, hr2, he⟩
          have : r2 = r := revisionMarker_injective he
          subst this
          have := (List.mem_filter.mp hr2).2
          rw [hra] at this
          simp at this
      rw [hz, Nat.zero_add,
        List.count_map_of_injective _ _ revisionMarker_injective,
        List.count_filter (by simpa using hra)]
    | some k =>
      have hex : ∃ m ∈ ms, m.id = k := by
        rcases hanchor r hr with hnone | ⟨m, hm, he⟩
        · rw [hra] at hnone
          simp at hnone
        · rw [hra] at he
          exact ⟨m, hm, by injection he⟩
      rw [count_marker_flatMap ms rs r k hra, countP_id_eq_one ms k hids hex, Nat.one_mul]
      have hz : ((rs.filter (fun x => x.afterMessageID = none)).map
          timelineItem.revisionMarker).count (timelineItem.revisionMarker r) = 0 := by
        apply List.count_eq_zero_of_not_mem
        intro hmem
        rcases List.mem_map.mp hmem with ⟨r2, hr2, he⟩
        have : r2 = r := revisionMarker_injective he
        subst this
        have := (List.mem_filter.mp hr2).2
        rw [hra] at this
        simp at this
      rw [hz, Nat.add_zero]

/-- Witness for the C2 amended theorem: the specification example — three
messages, one revision anchored to the second, one unanchored revision. -/
theorem buildTimeline_interleaves_witness :
    buildTimeline
      [{ id := 1, role := "user" }, { id := 2, role := "assistant" }, { id := 3, role := "user" }]
      [{ id := 10, afterMessageID := some 2 }, { id := 11 }] =
      [timelineItem.message { id := 1, role := "user" },
       timelineItem.message { id := 2, role := "assistant" },
       timelineItem.revisionMarker { id := 10, afterMessageID := some 2 },
       timelineItem.message { id := 3, role := "user" },
       timelineItem.revisionMarker { id := 11 }] := by
  have h := (buildTimeline_interleaves
    [{ id := 1, role := "user" }, { id := 2, role := "assistant" }, { id := 3, role := "user" }]
    [{ id := 10, afterMessageID := some 2 }, { id := 11 }]
    (by decide) (by decide)).1
  rw [h]
  rfl

/-- C6 counterexample: the live parser (parseResponse of claude.go) accepts a
direct decode whose mandatory message field is empty — the non-empty
acceptance condition is enforced only by parseRawResponse, which rejects the
same payload. -/
theorem parseResponse_accepts_empty_message :
    parseResponse "\x7b\"prompt_ready\":true\x7d" =
      some { message := "", promptReady := true } ∧
    parseRawResponse "\x7b\"prompt_ready\":true\x7d" = none := by
  exact ⟨by decide, by decide⟩

/-- C6 (amended): both parsers run the ordered fallback where the first success
wins — pre-parsed structured field, then the secondary result string, then the
direct decode of the raw value — but only the stored-raw parser
(parseRawResponse) accepts the direct decode solely when the mandatory message
field is non-empty; the live parser (parseResponse) accepts any successful
direct decode, and on a result string that fails to decode it degrades to that
string as the message while parseRawResponse falls through to the checked
direct decode. -/
theorem parse_fallback_first_success (raw : String) :
    (jparse raw = none → parseRawResponse raw = none ∧ parseResponse raw = none) ∧
    (∀ j, jparse raw = some j →
      (∀ w resp, decodeRespWrapper j = some w → w.structuredOutput = some resp →
        parseRawResponse raw = some resp ∧ parseResponse raw = some resp) ∧
      (∀ w, decodeRespWrapper j = some w → w.structuredOutput = none → w.result ≠ "" →
        (∀ resp, (jparse w.result).bind decodeResponse = some resp →
          parseRawResponse raw = some resp ∧ parseResponse raw = some resp) ∧
        ((jparse w.result).bind decodeResponse = none →
          parseRawResponse raw = directParseChecked j ∧
          parseResponse raw = some { message := w.result })) ∧
      (∀ w, decodeRespWrapper j = some w → w.structuredOutput = none → w.result = "" →
        parseRawResponse raw = directParseChecked j ∧
        parseResponse raw = directParse j) ∧
      (decodeRespWrapper j = none →
        parseRawResponse raw = directParseChecked j ∧
        parseResponse raw = directParse j) ∧
      (∀ resp, directParseChecked j = some resp → resp.message ≠ "")) := by
  constructor
  · intro h
    constructor <;> simp [parseRawResponse, parseResponse, h]
  · intro j hj
    refine ⟨?_, ?_, ?_, ?_, ?_⟩
    · intro w resp hw hso
      constructor <;> simp [parseRawResponse, parseResponse, hj, hw, hso]
    · intro w hw hso hres
      constructor
      · intro resp hbind
        cases hjr : jparse w.result with
        | none => rw [hjr] at hbind; exact absurd hbind (by simp)
        | some rj =>
          rw [hjr] at hbind
          simp at hbind
          constructor <;>
            simp [parseRawResponse, parseResponse, hj, hw, hso, hres, hjr, hbind]
      · intro hbind
        cases hjr : jparse w.result with
        | none =>
          constructor <;> simp [parseRawResponse, parseResponse, hj, hw, hso, hres, hjr]
        | some rj =>
          rw [hjr] at hbind
          simp at hbind
          constructor <;>
            simp [parseRawResponse, parseResponse, hj, hw, hso, hres, hjr, hbind]
    · intro w hw hso hres
      constructor <;> simp [parseRawResponse, parseResponse, hj, hw, hso, hres]
    · intro hw
      constructor <;> simp [parseRawResponse, parseResponse, hj, hw]
    · intro resp hd
      unfold directParseChecked at hd
      cases hdec : decodeResponse j with
      | none => rw [hdec] at hd; exact absurd hd (by simp)
      | some r =>
        rw [hdec] at hd
        by_cases hm : r.message = ""
        · simp [hm] at hd
        · simp [hm] at hd
          subst hd
          exact hm

/-- Witness for the C6 amended theorem: the pre-parsed structured field wins at
a concrete envelope. -/
theorem parse_fallback_first_success_witness :
    parseRawResponse "\x7b\"structured_output\":\x7b\"message\":\"ok\"\x7d\x7d" =
      some { message := "ok" } :=
  (((parse_fallback_first_success
        "\x7b\"structured_output\":\x7b\"message\":\"ok\"\x7d\x7d").2
      (Json.obj [("structured_output", Json.obj [("message", Json.str "ok")])]) rfl).1
    { structuredOutput := some { message := "ok" }, result := "" }
    { message := "ok" } rfl rfl).1

/-- C7: a structured object serialized into the secondary result string field
decodes to the identical normalized response as the same object placed
directly in the primary structured field, under either parser. -/
theorem envelope_roundtrip (s raw1 raw2 : String)
    (fields : List (String × Json)) (resp : Response)
    (hs : jparse s = some (Json.obj fields))
    (hr : decodeResponse (Json.obj fields) = some resp)
    (h1 : jparse raw1 = some (Json.obj [("structured_output", Json.obj fields)]))
    (h2 : jparse raw2 = some (Json.obj [("result", Json.str s)])) :
    parseRawResponse raw1 = some resp ∧ parseResponse raw1 = some resp ∧
    parseRawResponse raw2 = some resp ∧ parseResponse raw2 = some resp := by
  have hW1 : decodeRespWrapper (Json.obj [("structured_output", Json.obj fields)]) =
      some { structuredOutput := some resp, result := "" } := by
    simp [decodeRespWrapper, goRespPtr, hr]
  have hW2 : decodeRespWrapper (Json.obj [("result", Json.str s)]) =
      some { structuredOutput := none, result := s } := by
    simp [decodeRespWrapper, goStr]
  have hempty : jparse "" = none := rfl
  have hsne : s ≠ "" := by
    intro he
    rw [he, hempty] at hs
    cases hs
  refine ⟨?_, ?_, ?_, ?_⟩
  · simp [parseRawResponse, h1, hW1]
  · simp [parseResponse, h1, hW1]
  · simp [parseRawResponse, h2, hW2, hsne, hs, hr]
  · simp [parseResponse, h2, hW2, hsne, hs, hr]

/-- Witness for the C7 theorem with a concrete object, its serialization, and
the two concrete envelopes. -/
theorem envelope_roundtrip_witness :
    parseRawResponse "\x7b\"result\":\"\x7b\\\"message\\\":\\\"hi\\\"\x7d\"\x7d" =
      some { message := "hi" } :=
  (envelope_roundtrip "\x7b\"message\":\"hi\"\x7d"
    "\x7b\"structured_output\":\x7b\"message\":\"hi\"\x7d\x7d"
    "\x7b\"result\":\"\x7b\\\"message\\\":\\\"hi\\\"\x7d\"\x7d"
    [("message", Json.str "hi")] { message := "hi" }
    rfl rfl rfl rfl).2.2.1

/-- C1: question extraction from a stored raw response is a two-pass decode.
When the primary decode fails the result is empty with the flag down; when it
yields N greater than zero questions, exactly those N normalized questions are
returned in order, preserving header, text, and multi-select, with question i
tagged index i; when it yields an empty question list the same raw bytes are
re-decoded against the legacy-only schema, a present legacy singular question
yielding exactly one normalized question at index 0 and an absent one the
empty result; in every case the prompt-ready flag comes from the primary
decode. -/
theorem extractQuestions_two_pass (raw : String) :
    (parseRawResponse raw = none → extractQuestionsFromRaw raw = ([], false)) ∧
    (∀ resp, parseRawResponse raw = some resp →
      (extractQuestionsFromRaw raw).2 = resp.promptReady ∧
      (resp.questions ≠ [] →
        (extractQuestionsFromRaw raw).1.length = resp.questions.length ∧
        ∀ i, (hi : i < resp.questions.length) →
          (extractQuestionsFromRaw raw).1[i]? =
            some { header := resp.questions[i].header,
                   text := resp.questions[i].text,
                   multiSelect := resp.questions[i].multiSelect,
                   index := i,
                   options := resp.questions[i].options.map
                     (fun o => { label := o.label, description := o.description }) }) ∧
      (resp.questions = [] →
        (extractQuestionsFromRaw raw).1 = extractLegacyQuestion raw)) ∧
    (∀ j lw, jparse raw = some j → decodeLegacyWrapper j = some lw →
      (∀ so q, lw.structuredOutput = some so → so.question = some q →
        extractLegacyQuestion raw =
          [{ text := q.text, index := 0,
             options := q.options.map
               (fun o => { label := o.label, description := o.description }) }]) ∧
      (lw.structuredOutput = none → extractLegacyQuestion raw = []) ∧
      (∀ so, lw.structuredOutput = some so → so.question = none →
        extractLegacyQuestion raw = [])) := by
  refine ⟨?_, ?_, ?_⟩
  · intro h
    simp [extractQuestionsFromRaw, h]
  · intro resp h
    refine ⟨?_, ?_, ?_⟩
    · by_cases hq : resp.questions.length = 0 <;>
        simp [extractQuestionsFromRaw, h, hq]
    · intro hne
      have hq : ¬(resp.questions.length = 0) := by
        simpa [List.length_eq_zero] using hne
      constructor
      · simp [extractQuestionsFromRaw, h, hq]
      · intro i hi
        simp only [extractQuestionsFromRaw, h, hq, if_false]
        rw [List.getElem?_map, List.getElem?_enum, List.getElem?_eq_getElem hi]
        rfl
    · intro hq0
      simp [extractQuestionsFromRaw, h, hq0]
  · intro j lw hj hlw
    refine ⟨?_, ?_, ?_⟩
    · intro so q hso hq
      simp [extractLegacyQuestion, hj, hlw, hso, hq]
    · intro hnone
      simp [extractLegacyQuestion, hj, hlw, hnone]
    · intro so hso hqn
      simp [extractLegacyQuestion, hj, hlw, hso, hqn]

/-- Witness for the C1 theorem: a concrete raw response with a two-question
array and the prompt-ready flag set. -/
theorem extractQuestions_two_pass_witness :
    (extractQuestionsFromRaw
        "\x7b\"structured_output\":\x7b\"message\":\"m\",\"prompt_ready\":true,\"questions\":[\x7b\"header\":\"h1\",\"text\":\"t1\",\"multiSelect\":true\x7d,\x7b\"text\":\"t2\"\x7d]\x7d\x7d").2 =
      true := by
  have h := ((extractQuestions_two_pass
      "\x7b\"structured_output\":\x7b\"message\":\"m\",\"prompt_ready\":true,\"questions\":[\x7b\"header\":\"h1\",\"text\":\"t1\",\"multiSelect\":true\x7d,\x7b\"text\":\"t2\"\x7d]\x7d\x7d").2.1
    { message := "m", promptReady := true,
      questions := [{ header := "h1", text := "t1", multiSelect := true },
                    { text := "t2" }] }
    (by decide)).1
  rw [h]

end Prompter
